import Mathlib

/-!
Verification of the `genaiclient` chat/agent library.

This file shallowly embeds the parts of the Go code the claims concern:

* `pkg/genaiconfig/genaiconfig.go` — the data model (`GenerationConfig`,
  `Prompt`, `ChatMessage`, `ModelResponse`, `Tool`, `SchemaConfig`, ...).
* `pkg/adapter/gemini_adapter.go` — prompt/response/tool conversion
  (`GeminiContentFromPrompt`, `ModelResponseFromGeminiContent`,
  `BuildGeminiTool`, `GeminiConfigFromGenerationConfig`).
* `agent.go` (agent package) — `mergeGenerationConfig`,
  `cloneGenerationConfig`, `Agent.Generate`.
* `chat.go` (agent package) — `Chat.SendMessage`, `Chat.SendMessageStream`.

Conventions of the embedding:

* Go pointers that only encode optionality become `Option`.
* `float32` values are never computed with by the code under study, so they
  are embedded as opaque bit patterns (`F32`), compared only for identity.
* Opaque JSON values (`map[string]interface{}`, marshalled blobs) are
  embedded as opaque tokens (`JsonValue`); the code only moves them around.
* Go reflection (`buildSchemaFromType ∘ reflect.TypeOf`) is embedded as an
  explicit function parameter `bst : TypeRepr → GenaiSchema`: the claims
  only track where its result flows, never its internal structure.
* Side effects (Redis writes, the inference API, local file reads) become
  explicit state passing / oracle parameters, with an event trace recording
  the order of effects where a claim is about ordering.
* A Go `nil`-pointer dereference is modelled by an explicit `panicked`
  outcome.
-/

namespace Genaiclient

/-- Opaque float32 bit pattern: the code never computes with sampling
parameters, so only identity matters. -/
structure F32 where
  bits : Nat
deriving DecidableEq, Repr

/-- Opaque JSON value token (Go `map[string]interface{}` / `any` payloads
that the code moves around without inspecting). -/
structure JsonValue where
  token : Nat
deriving DecidableEq, Repr

/-- Go `error` values as the code builds them: `errors.New`/`fmt.Errorf`
without `%w` yield leaves, `fmt.Errorf("...: %w", err)` wraps a cause.
Wrapping is structural, as `errors.Is`/`errors.Unwrap` observe it. -/
inductive GoErr where
  | msg (s : String)
  | wrap (context : String) (cause : GoErr)
deriving DecidableEq, Repr

/-- `fmt.Sprintf("%v", err)`: the flat rendering of an error chain. -/
def GoErr.render : GoErr → String
  | .msg s => s
  | .wrap c e => c ++ ": " ++ e.render

/-- Opaque representation of a Go type (`reflect.Type`) handed to the
reflection-based schema builder. -/
structure TypeRepr where
  token : Nat
deriving DecidableEq, Repr

/-- Opaque wire schema object (`*genai.Schema`): claims only track which
field of the declaration a schema lands in, never its contents. -/
structure GenaiSchema where
  token : Nat
deriving DecidableEq, Repr

/-- `genaiconfig.FunctionCallingMode` (a string type in Go). -/
abbrev FunctionCallingMode := String

/-- `genaiconfig.SchemaConfig`: three alternative schema sources. -/
structure SchemaConfig where
  schemaJSON : Option JsonValue := none
  schemaGenAI : Option GenaiSchema := none
  schema : Option TypeRepr := none
deriving DecidableEq, Repr

/-- `genaiconfig.Tool`. -/
structure Tool where
  name : String := ""
  description : String := ""
  requestConfig : Option SchemaConfig := none
  responseConfig : Option SchemaConfig := none
deriving DecidableEq, Repr

/-- `genaiconfig.ToolConfig`. -/
structure ToolConfig where
  mode : FunctionCallingMode := ""
  allowedTools : List String := []
deriving DecidableEq, Repr

/-- `genaiconfig.GenerationConfig` (the variant with scalar
`MaxOutputTokens int32` that `mergeGenerationConfig` operates on). -/
structure GenerationConfig where
  temperature : Option F32 := none
  topP : Option F32 := none
  topK : Option F32 := none
  maxOutputTokens : Int := 0
  stopSequences : List String := []
  responseSchemaConfig : Option SchemaConfig := none
  tools : List Tool := []
  toolConfig : Option ToolConfig := none
deriving DecidableEq, Repr

/-- `genaiconfig.FunctionCall`. -/
structure FunctionCall where
  name : String := ""
  args : Option JsonValue := none
deriving DecidableEq, Repr

/-- `genaiconfig.ModelResponse`: text, optional function call, optional
error (errors are embedded as their message strings). -/
structure ModelResponse where
  text : String := ""
  functionCall : Option FunctionCall := none
  error : Option GoErr := none
deriving DecidableEq, Repr

/-- `genaiconfig.ChatMessage`. -/
structure ChatMessage where
  role : String
  content : String
deriving DecidableEq, Repr

/-- `genaiconfig.FileConfig` (metadata map elided: never read by the
converted code paths). -/
structure FileConfig where
  path : String := ""
  contents : List Nat := []
  name : String := ""
  context : String := ""
  mimeType : String := ""
deriving DecidableEq, Repr

/-- `genaiconfig.Prompt`. `structuredText` is the optional structured JSON
payload; its `json.Marshal` serialisation (total on map data) is carried
alongside as the string the adapter would emit. -/
structure Prompt where
  text : String := ""
  structuredText : Option JsonValue := none
  files : List FileConfig := []
  model : String := ""
deriving DecidableEq, Repr

/-- Serialisation oracle for structured payloads: `json.Marshal` on a
`map[string]interface{}` is total, so it is a plain function of the token. -/
def marshalJson (v : JsonValue) : String := "json:" ++ toString v.token

/-- `genaiconfig.ChatConfig`. -/
structure ChatConfig where
  id : String := ""
  agentID : String := ""
  userID : String := ""
  model : String := ""
  generationConfig : Option GenerationConfig := none
deriving DecidableEq, Repr

/-- `genaiconfig.AgentConfig` (fields the claims touch). -/
structure AgentConfig where
  id : String := ""
  persona : String := ""
  systemInstruction : String := ""
  defaultModel : String := ""
  defaultGenerationConfig : Option GenerationConfig := none
deriving DecidableEq, Repr

/-- `genaiconfig.User`. -/
structure User where
  id : String := ""
  context : String := ""
deriving DecidableEq, Repr

/-! ## `mergeGenerationConfig` (agent.go)

The Go routine mutates `base` in place, field by field; the embedding
passes the mutated struct along explicitly, one `let` per Go `if`. -/

/-- `mergeGenerationConfig(base, override)` from agent.go: override wins
per field only when it is present / non-zero / non-empty. The Go function
takes `override *GenerationConfig` and returns immediately when it is nil. -/
def mergeGenerationConfig (base : GenerationConfig) (override : Option GenerationConfig) :
    GenerationConfig :=
  match override with
  | none => base
  | some o =>
    let base := if o.temperature.isSome then { base with temperature := o.temperature } else base
    let base := if o.topP.isSome then { base with topP := o.topP } else base
    let base := if o.topK.isSome then { base with topK := o.topK } else base
    let base := if o.maxOutputTokens ≠ 0 then
        { base with maxOutputTokens := o.maxOutputTokens } else base
    let base := if o.stopSequences.length > 0 then
        { base with stopSequences := o.stopSequences } else base
    let base := if o.responseSchemaConfig.isSome then
        { base with responseSchemaConfig := o.responseSchemaConfig } else base
    let base := if o.tools.length > 0 then { base with tools := o.tools } else base
    let base := if o.toolConfig.isSome then { base with toolConfig := o.toolConfig } else base
    base

/-! ## Gemini wire model (`google.golang.org/genai` surface the code uses) -/

/-- `genai.Blob` (inline binary data). -/
structure Blob where
  mimeType : String := ""
  data : List Nat := []
deriving DecidableEq, Repr

/-- `genai.FileData` (remote file reference). -/
structure FileData where
  displayName : String := ""
  fileURI : String := ""
  mimeType : String := ""
deriving DecidableEq, Repr

/-- `genai.FunctionCall` on the wire. -/
structure GeminiFunctionCall where
  name : String := ""
  args : Option JsonValue := none
deriving DecidableEq, Repr

/-- `genai.Part`. `jsonRepr` stands for the `json.Marshal` serialisation the
fallback branch of `ModelResponseFromGeminiContent` emits for parts that are
neither text nor function calls. -/
structure GeminiPart where
  text : String := ""
  functionCall : Option GeminiFunctionCall := none
  inlineData : Option Blob := none
  fileData : Option FileData := none
  jsonRepr : String := ""
deriving DecidableEq, Repr

/-- `genai.Content`. -/
structure GeminiContent where
  role : String := ""
  parts : List GeminiPart := []
deriving DecidableEq, Repr

/-- `genai.Candidate` (the fields the code reads). -/
structure GeminiCandidate where
  content : Option GeminiContent := none
deriving DecidableEq, Repr

/-- `genai.FunctionDeclaration` (fields `BuildGeminiTool` writes). -/
structure FunctionDeclaration where
  name : String := ""
  description : String := ""
  parametersJsonSchema : Option JsonValue := none
  parameters : Option GenaiSchema := none
  responseJsonSchema : Option JsonValue := none
deriving DecidableEq, Repr

/-- `genai.Tool`. -/
structure GeminiTool where
  functionDeclarations : List FunctionDeclaration := []
deriving DecidableEq, Repr

/-- `genai.ToolConfig`/`genai.FunctionCallingConfig` collapsed to the two
fields the adapter sets. -/
structure GeminiToolConfig where
  mode : String := ""
  allowedFunctionNames : List String := []
deriving DecidableEq, Repr

/-- `genai.GenerateContentConfig` (fields the adapter and `Agent.Generate`
touch). `systemInstruction` is `*genai.Content` in Go, hence `Option`. -/
structure GenerateContentConfig where
  temperature : Option F32 := none
  topP : Option F32 := none
  topK : Option F32 := none
  maxOutputTokens : Int := 0
  stopSequences : List String := []
  responseMIMEType : String := ""
  responseJsonSchema : Option JsonValue := none
  responseSchema : Option GenaiSchema := none
  tools : List GeminiTool := []
  toolConfig : Option GeminiToolConfig := none
  systemInstruction : Option GeminiContent := none
deriving DecidableEq, Repr

/-! ## `pkg/adapter/gemini_adapter.go` -/

/-- `convertFunctionCallingMode`: genai mode constants are themselves
strings, so the result is the wire mode string. Empty mode defaults to
`AUTO`. -/
def convertFunctionCallingMode (mode : FunctionCallingMode) : Except GoErr String :=
  match mode with
  | "MODE_UNSPECIFIED" => .ok "MODE_UNSPECIFIED"
  | "AUTO" => .ok "AUTO"
  | "ANY" => .ok "ANY"
  | "NONE" => .ok "NONE"
  | "VALIDATED" => .ok "VALIDATED"
  | "" => .ok "AUTO"
  | m => .error (.msg ("invalid function calling mode: " ++ m))

/-- `BuildGeminiTool`: sequential `if` chain writing into one
`FunctionDeclaration`. `bst` is `buildSchemaFromType ∘ reflect.TypeOf`. The
Go function's error return is always nil. -/
def BuildGeminiTool (bst : TypeRepr → GenaiSchema) (tool : Tool) :
    Except GoErr GeminiTool :=
  let fd : FunctionDeclaration := { name := tool.name, description := tool.description }
  let fd := match tool.requestConfig with
    | none => fd
    | some requestConfig =>
      let fd := match requestConfig.schemaJSON with
        | some j => { fd with parametersJsonSchema := some j }
        | none => fd
      let fd := match requestConfig.schema with
        | some t => { fd with parameters := some (bst t) }
        | none => fd
      let fd := match requestConfig.schemaGenAI with
        | some s => { fd with parameters := some s }
        | none => fd
      fd
  let fd := match tool.responseConfig with
    | none => fd
    | some responseConfig =>
      let fd := match responseConfig.schemaJSON with
        | some j => { fd with responseJsonSchema := some j }
        | none => fd
      let fd := match responseConfig.schema with
        | some t => { fd with parameters := some (bst t) }
        | none => fd
      let fd := match responseConfig.schemaGenAI with
        | some s => { fd with parameters := some s }
        | none => fd
      fd
  .ok { functionDeclarations := [fd] }

/-- `BuildGeminiTools`: converts each tool, wrapping any error with the
tool's name (the error branch is dead since `BuildGeminiTool` never fails). -/
def BuildGeminiTools (bst : TypeRepr → GenaiSchema) : List Tool → Except GoErr (List GeminiTool)
  | [] => .ok []
  | tool :: rest =>
    match BuildGeminiTool bst tool with
    | .error e => .error (.wrap ("Eror Converting tool " ++ tool.name ++ " to gemini tool") e)
    | .ok g =>
      match BuildGeminiTools bst rest with
      | .error e => .error e
      | .ok gs => .ok (g :: gs)

/-- The `// Convert ResponseJSONSchema map to genai.Schema` block of
`GeminiConfigFromGenerationConfig`. -/
def applyResponseSchemaConfig (bst : TypeRepr → GenaiSchema)
    (genConfig : GenerateContentConfig) (responseSchema : Option SchemaConfig) :
    GenerateContentConfig :=
  match responseSchema with
  | none => genConfig
  | some responseSchema =>
    let genConfig := { genConfig with responseMIMEType := "application/json" }
    let genConfig := match responseSchema.schemaJSON with
      | some j => { genConfig with responseJsonSchema := some j }
      | none => genConfig
    let genConfig := match responseSchema.schema with
      | some t => { genConfig with responseSchema := some (bst t) }
      | none => genConfig
    let genConfig := match responseSchema.schemaGenAI with
      | some s => { genConfig with responseSchema := some s }
      | none => genConfig
    genConfig

/-- The `// Convert Tools …` block of `GeminiConfigFromGenerationConfig`. -/
def applyToolsConfig (bst : TypeRepr → GenaiSchema)
    (genConfig : GenerateContentConfig) (tools : List Tool) :
    Except GoErr GenerateContentConfig :=
  if tools.length > 0 then
    match BuildGeminiTools bst tools with
    | .error e => .error (.wrap "Unable to convert tools to gemini tools" e)
    | .ok ts => .ok { genConfig with tools := ts }
  else .ok genConfig

/-- The `// ToolConfig …` block of `GeminiConfigFromGenerationConfig`. -/
def applyToolConfig (genConfig : GenerateContentConfig)
    (toolConfig : Option ToolConfig) : Except GoErr GenerateContentConfig :=
  match toolConfig with
  | none => .ok genConfig
  | some tc =>
    match convertFunctionCallingMode tc.mode with
    | .error e => .error (.wrap "Unable to convert tool config calling mode to gemini" e)
    | .ok mode =>
      .ok { genConfig with
              toolConfig := some { mode := mode, allowedFunctionNames := tc.allowedTools } }

/-- `GeminiConfigFromGenerationConfig`: nil config is an error; scalar
fields copy over; then the response-schema, tools and tool-config blocks
run in sequence (each block named after its comment in the source). -/
def GeminiConfigFromGenerationConfig (bst : TypeRepr → GenaiSchema)
    (config : Option GenerationConfig) : Except GoErr GenerateContentConfig :=
  match config with
  | none => .error (.msg "Config is null please provide config")
  | some config =>
    let genConfig : GenerateContentConfig :=
      { temperature := config.temperature
        topP := config.topP
        topK := config.topK
        maxOutputTokens := config.maxOutputTokens
        stopSequences := config.stopSequences }
    let genConfig := applyResponseSchemaConfig bst genConfig config.responseSchemaConfig
    match applyToolsConfig bst genConfig config.tools with
    | .error e => .error e
    | .ok genConfig => applyToolConfig genConfig config.toolConfig

/-- `strings.HasPrefix`, computed on the character lists. -/
def hasPrefixChars : List Char → List Char → Bool
  | [], _ => true
  | _ :: _, [] => false
  | c :: cs, d :: ds => c == d && hasPrefixChars cs ds

/-- `strings.HasPrefix pre s` (argument order: prefix first). -/
def strHasPre (pre s : String) : Bool := hasPrefixChars pre.data s.data

/-- `isRemoteURL`. -/
def isRemoteURL (path : String) : Bool :=
  strHasPre "http://" path || strHasPre "https://" path

/-- `fileConfigToPart`, with local-disk reads abstracted into the oracle
`readFile` (which absorbs `filepath.Clean`): inline contents win, then a
remote path becomes a file reference, then a local path is read from disk
(failure is fatal), and a file with neither contents nor path is an error. -/
def fileConfigToPart (readFile : String → Except GoErr (List Nat))
    (file : FileConfig) : Except GoErr GeminiPart :=
  let mimeType := if file.mimeType = "" then "application/octet-stream" else file.mimeType
  if file.contents.length > 0 then
    .ok { inlineData := some { mimeType := mimeType, data := file.contents } }
  else if file.path ≠ "" then
    if isRemoteURL file.path then
      .ok { fileData := some { displayName := file.name, fileURI := file.path,
                               mimeType := mimeType } }
    else
      match readFile file.path with
      | .error e => .error (.wrap ("fileConfigToPart: failed to read local file " ++
          file.path) e)
      | .ok data => .ok { inlineData := some { mimeType := mimeType, data := data } }
  else
    .error (.msg "fileConfigToPart: both file.Contents and file.Path are empty")

/-- The file loop of `GeminiContentFromPrompt`: each failure is wrapped with
the file's index. -/
def filesToParts (readFile : String → Except GoErr (List Nat)) :
    List FileConfig → Nat → Except GoErr (List GeminiPart)
  | [], _ => .ok []
  | file :: rest, i =>
    match fileConfigToPart readFile file with
    | .error e => .error (.wrap ("failed to process file at index " ++ toString i) e)
    | .ok part =>
      match filesToParts readFile rest (i + 1) with
      | .error e => .error e
      | .ok parts => .ok (part :: parts)

/-- `GeminiContentFromPrompt`: rejects a prompt with no text, no structured
payload and no files; otherwise builds parts in order text, structured
JSON, then files, under role `user`. -/
def GeminiContentFromPrompt (readFile : String → Except GoErr (List Nat))
    (prompt : Prompt) : Except GoErr (List GeminiContent) :=
  if prompt.text = "" && prompt.files.length = 0 && prompt.structuredText.isNone then
    .error (.msg "prompt must contain at least text, structured text, or files")
  else
    let parts : List GeminiPart :=
      if prompt.text ≠ "" then [{ text := prompt.text }] else []
    let parts := match prompt.structuredText with
      | some v => parts ++ [{ text := marshalJson v }]
      | none => parts
    match filesToParts readFile prompt.files 0 with
    | .error e => .error e
    | .ok fileParts =>
      .ok [{ role := "user", parts := parts ++ fileParts }]

/-- Go `strings.TrimSpace`: drop leading and trailing whitespace. -/
def trimSpace (s : String) : String :=
  ⟨((s.data.dropWhile Char.isWhitespace).reverse.dropWhile Char.isWhitespace).reverse⟩

/-- The part-iteration of `ModelResponseFromGeminiContent`: the accumulator
carries the text builder and the (last-wins) function call. A function-call
part sets the call; a non-empty text part appends `text ++ "\n"`; any other
part appends its JSON serialisation plus newline. -/
def foldParts : List GeminiPart → String × Option FunctionCall →
    String × Option FunctionCall
  | [], acc => acc
  | part :: rest, (sb, fc) =>
    match part.functionCall with
    | some pfc => foldParts rest (sb, some { name := pfc.name, args := pfc.args })
    | none =>
      if part.text ≠ "" then foldParts rest (sb ++ part.text ++ "\n", fc)
      else foldParts rest (sb ++ part.jsonRepr ++ "\n", fc)

/-- `ModelResponseFromGeminiContent`: empty candidate list or a first
candidate without content parts is an error; otherwise only the first
candidate is read and its parts folded, final text trimmed. -/
def ModelResponseFromGeminiContent (res : List GeminiCandidate) :
    Except GoErr ModelResponse :=
  match res with
  | [] => .error (.msg "no candidates found in response")
  | c :: _ =>
    match c.content with
    | none => .error (.msg "candidate has no content parts")
    | some content =>
      if content.parts.length = 0 then .error (.msg "candidate has no content parts")
      else
        let (sb, fc) := foldParts content.parts ("", none)
        .ok { text := trimSpace sb, functionCall := fc }

/-! ## Chat session (`chat.go`, agent package)

The Redis client and the upstream Gemini session are external
collaborators; their behaviour is injected. A `ChatState` carries the
durable message log, a schedule of write outcomes for `SaveChatMessage`
(`none` = success, `some e` = failure with cause `e`), an API-invocation
counter, and an event trace recording the order of effects. -/

/-- An observable effect of a chat operation, in order of occurrence. -/
inductive StoreEvent where
  | save (msg : ChatMessage) (ok : Bool)
  | apiCall
deriving DecidableEq, Repr

/-- State threaded through a `Chat` operation. -/
structure ChatState where
  log : List ChatMessage := []
  pendingOutcomes : List (Option GoErr) := []
  apiCalls : Nat := 0
  events : List StoreEvent := []
deriving DecidableEq, Repr

/-- `redisClient.SaveChatMessage`: consumes the next scheduled outcome (an
empty schedule means success); a successful write appends to the log. -/
def saveChatMessage (st : ChatState) (msg : ChatMessage) : ChatState × Option GoErr :=
  match st.pendingOutcomes with
  | [] =>
    ({ st with log := st.log ++ [msg], events := st.events ++ [.save msg true] }, none)
  | none :: rest =>
    ({ st with log := st.log ++ [msg], pendingOutcomes := rest,
               events := st.events ++ [.save msg true] }, none)
  | some e :: rest =>
    ({ st with pendingOutcomes := rest, events := st.events ++ [.save msg false] }, some e)

/-- `Chat.SendMessage`: persist the user turn first (failure aborts with a
wrapped error, before the API is touched); then call the upstream session;
on success, best-effort persist the first part's text of the first
candidate as the model turn, and return the converted response. -/
def chatSendMessage (apiResult : Except GoErr (List GeminiCandidate))
    (st : ChatState) (prompt : Prompt) : ChatState × Except GoErr ModelResponse :=
  let userMsg : ChatMessage := { role := "user", content := prompt.text }
  match saveChatMessage st userMsg with
  | (st1, some e) => (st1, .error (.wrap "error saving the redis SaveChatMessage" e))
  | (st1, none) =>
    let st2 := { st1 with apiCalls := st1.apiCalls + 1, events := st1.events ++ [.apiCall] }
    match apiResult with
    | .error e => (st2, .error (.wrap "error from Gemini SendMessage" e))
    | .ok candidates =>
      let st3 := match candidates with
        | [] => st2
        | candidate :: _ =>
          match candidate.content with
          | none => st2
          | some content =>
            match content.parts with
            | [] => st2
            | part0 :: _ =>
              if part0.text ≠ "" then
                (saveChatMessage st2 { role := "model", content := part0.text }).1
              else st2
      (st3, ModelResponseFromGeminiContent candidates)

/-- The per-part body of the streaming loop: a non-empty text chunk is
accumulated and emitted incrementally; otherwise a function-call chunk is
emitted immediately. Returns the updated accumulator and emitted items. -/
def streamParts : List GeminiPart → String × List ModelResponse →
    String × List ModelResponse
  | [], acc => acc
  | part :: rest, (accumulated, out) =>
    if part.text ≠ "" then
      streamParts rest (accumulated ++ part.text, out ++ [{ text := part.text }])
    else
      match part.functionCall with
      | some fn =>
        streamParts rest (accumulated,
          out ++ [{ functionCall := some { name := fn.name, args := fn.args } }])
      | none => streamParts rest (accumulated, out)

/-- The consuming loop of `Chat.SendMessageStream`: each upstream item is
either an error (delivered to the consumer as an item, then the goroutine
returns — without reaching the flush) or a chunk whose first candidate's
parts are processed; at normal stream end a non-empty accumulator is
flushed as one model message (best-effort). -/
def streamLoop (st : ChatState) (items : List (Except GoErr (List GeminiCandidate)))
    (accumulated : String) (out : List ModelResponse) : ChatState × List ModelResponse :=
  match items with
  | [] =>
    if accumulated ≠ "" then
      ((saveChatMessage st { role := "model", content := accumulated }).1, out)
    else (st, out)
  | .error e :: _ => (st, out ++ [{ error := some e }])
  | .ok candidates :: rest =>
    match candidates with
    | [] => streamLoop st rest accumulated out
    | cand :: _ =>
      match cand.content with
      | none => streamLoop st rest accumulated out
      | some content =>
        let acc_out := streamParts content.parts (accumulated, out)
        streamLoop st rest acc_out.1 acc_out.2

/-- `Chat.SendMessageStream`: the user turn is persisted before the
upstream stream is opened; a failure is delivered as a single error item
(`%v`-flattened, not wrapped) and nothing else happens. The result is the
final state together with the complete sequence of items the consumer
receives. -/
def chatSendMessageStream (stream : List (Except GoErr (List GeminiCandidate)))
    (st : ChatState) (prompt : Prompt) : ChatState × List ModelResponse :=
  let userMsg : ChatMessage := { role := "user", content := prompt.text }
  match saveChatMessage st userMsg with
  | (st1, some e) =>
    (st1, [{ error := some (.msg ("failed to save user message: " ++ e.render)) }])
  | (st1, none) => streamLoop st1 stream "" []

/-! ## Agent (`agent.go`, agent package)

Two views of `Agent.Generate` are embedded. The first keeps generation
configs on an explicit heap, so that the clone-before-merge discipline (a
claim about Go pointer aliasing) is visible. The second is the full pure
pipeline of the method body, with external collaborators as oracles and Go
panics as an explicit outcome. -/

/-- A heap of `GenerationConfig` records, addressed by allocation index;
`*GenerationConfig` pointers become indices. -/
abbrev ConfigHeap := List GenerationConfig

/-- Dereference a config pointer. -/
def heapGet (h : ConfigHeap) (r : Nat) : Option GenerationConfig := h.get? r

/-- In-place store through a config pointer. -/
def heapSet (h : ConfigHeap) (r : Nat) (v : GenerationConfig) : ConfigHeap := h.set r v

/-- `cloneGenerationConfig` on the heap: allocate a fresh cell holding a
copy of the pointed-to value (an empty config when the source is nil);
returns the new heap and the fresh pointer. -/
def cloneGenerationConfig (h : ConfigHeap) (src : Option Nat) : ConfigHeap × Nat :=
  let v : GenerationConfig := match src with
    | none => {}
    | some r => (heapGet h r).getD {}
  (h ++ [v], h.length)

/-- `mergeGenerationConfig(base, override)` called through a pointer: the
Go routine mutates the pointed-to struct in place. -/
def mergeGenerationConfigAt (h : ConfigHeap) (r : Nat)
    (override : Option GenerationConfig) : ConfigHeap :=
  match heapGet h r with
  | none => h
  | some base => heapSet h r (mergeGenerationConfig base override)

/-- The configuration-resolution prefix of `Agent.Generate`:
`baseGenConfig := cloneGenerationConfig(a.config.DefaultGenerationConfig)`
followed by the conditional `mergeGenerationConfig(baseGenConfig, ov)`.
Returns the heap after both steps and the pointer Generate continues with. -/
def generateResolveConfig (h : ConfigHeap) (defaultRef : Option Nat)
    (override : Option GenerationConfig) : ConfigHeap × Nat :=
  let (h1, r) := cloneGenerationConfig h defaultRef
  match override with
  | some ov => (mergeGenerationConfigAt h1 r (some ov), r)
  | none => (h1, r)

/-- Outcome of running a Go method that may return normally, return an
error, or panic. -/
inductive ExecOutcome (α : Type) where
  | ok (a : α)
  | err (e : GoErr)
  | panicked (reason : String)
deriving DecidableEq, Repr

/-- External collaborators of `Agent.Generate`. `userLookup` is
`FindUserByID` (`.ok none` = nil user without error); `apiCall` is
`genaiClient.Models.GenerateContent`, a function of exactly what Generate
passes it (`.ok none` = nil response without error). -/
structure GenerateEnv where
  userLookup : Except GoErr (Option User)
  readFile : String → Except GoErr (List Nat)
  apiCall : String → List GeminiContent → GenerateContentConfig →
    Except GoErr (Option (List GeminiCandidate))

/-- The value held by `baseGenConfig` after the clone/merge prefix of
`Agent.Generate`, as a pure value (the heap view above shows the copy is
fresh, so the value view is sound). -/
def generateBaseConfig (a : AgentConfig) (overrideConfig : Option ChatConfig) :
    GenerationConfig :=
  let base : GenerationConfig := (a.defaultGenerationConfig).getD {}
  match overrideConfig with
  | some oc =>
    match oc.generationConfig with
    | some g => mergeGenerationConfig base (some g)
    | none => base
  | none => base

/-- The user-context injection step of `Agent.Generate`:
`config.SystemInstruction.Parts = append(config.SystemInstruction.Parts, …)`.
Reading `.Parts` of a nil `*genai.Content` is a Go nil-pointer
dereference, modelled as a panic. -/
def injectUserContext (config : GenerateContentConfig) (context : String) :
    ExecOutcome GenerateContentConfig :=
  match config.systemInstruction with
  | none => .panicked "nil pointer dereference: config.SystemInstruction"
  | some si =>
    let part : GeminiPart := { text := "User Context: " ++ context }
    let si' : GeminiContent := { si with parts := si.parts ++ [part] }
    .ok { config with systemInstruction := some si' }

/-- `Agent.Generate`: resolve the config (clone + merge), convert it, do
the best-effort user-context lookup and injection, convert the prompt,
resolve the model name (prompt override beats the default), call the API,
and convert the response. Every failure is wrapped with its stage's
message. -/
def agentGenerate (bst : TypeRepr → GenaiSchema) (env : GenerateEnv)
    (a : AgentConfig) (defaultModel : String) (prompt : Prompt)
    (overrideConfig : Option ChatConfig) : ExecOutcome ModelResponse :=
  let baseGenConfig := generateBaseConfig a overrideConfig
  match GeminiConfigFromGenerationConfig bst (some baseGenConfig) with
  | .error e =>
    .err (.wrap "error converting the agent config to genai generation config" e)
  | .ok config =>
    let injected : ExecOutcome GenerateContentConfig :=
      match env.userLookup with
      | .error _ => .ok config
      | .ok none => .ok config
      | .ok (some user) =>
        if user.context.length > 0 then injectUserContext config user.context
        else .ok config
    match injected with
    | .panicked r => .panicked r
    | .err e => .err e
    | .ok config =>
      match GeminiContentFromPrompt env.readFile prompt with
      | .error e => .err (.wrap "error converting the prompt to genai content" e)
      | .ok content =>
        let model := if prompt.model.length > 0 then prompt.model else defaultModel
        match env.apiCall model content config with
        | .error e => .err (.wrap "failed to generate content using model" e)
        | .ok none => .err (.msg "gemini returned empty response")
        | .ok (some candidates) =>
          match ModelResponseFromGeminiContent candidates with
          | .error e => .err (.wrap "error converting gemini response to model response" e)
          | .ok r => .ok r

/-! ## Spec-side descriptions

These definitions follow the specification's words, to be compared with
the source-derived functions above. -/

/-- Spec: the concatenation of the text fragments of a part list (the text
a streaming consumer accumulates from one chunk). -/
def partsText : List GeminiPart → String
  | [] => ""
  | p :: rest => (if p.text ≠ "" then p.text else "") ++ partsText rest

/-- Spec: the text a stream chunk contributes — its first candidate's
parts' text (no candidate / no content contributes nothing). -/
def chunkText (cands : List GeminiCandidate) : String :=
  match cands with
  | [] => ""
  | c :: _ =>
    match c.content with
    | none => ""
    | some content => partsText content.parts

/-- Spec: the full concatenated text of an error-free upstream stream. -/
def streamText : List (Except GoErr (List GeminiCandidate)) → String
  | [] => ""
  | .error _ :: _ => ""
  | .ok cs :: rest => chunkText cs ++ streamText rest

/-- Spec: convert each file in file-list order ("one part per file"),
failing if any file fails — the index-free description of the file loop. -/
def mapFileParts (rf : String → Except GoErr (List Nat)) :
    List FileConfig → Except GoErr (List GeminiPart)
  | [] => .ok []
  | f :: rest =>
    match fileConfigToPart rf f with
    | .error e => .error e
    | .ok p =>
      match mapFileParts rf rest with
      | .error e => .error e
      | .ok ps => .ok (p :: ps)

/-- Spec: the last function call appearing among a candidate's parts
("last one wins"), converted to the application-level shape. -/
def lastFunctionCall (parts : List GeminiPart) : Option FunctionCall :=
  ((parts.filterMap (fun p => p.functionCall)).getLast?).map
    (fun fn => { name := fn.name, args := fn.args })

/-! # Theorems -/

/-- C5: for every base `B` and override `O`, `mergeGenerationConfig(B, O)`
leaves each field unset in `O` (nil pointer scalar, zero
`MaxOutputTokens`, empty list, nil `ResponseSchemaConfig`, nil
`ToolConfig`) unchanged from `B`, and replaces a field with `O`'s value
exactly when `O`'s value is present / non-zero / non-empty — per field,
not whole-struct. -/
theorem mergeGenerationConfig_per_field (b o : GenerationConfig) :
    (mergeGenerationConfig b (some o)).temperature
      = (if o.temperature.isSome then o.temperature else b.temperature) ∧
    (mergeGenerationConfig b (some o)).topP
      = (if o.topP.isSome then o.topP else b.topP) ∧
    (mergeGenerationConfig b (some o)).topK
      = (if o.topK.isSome then o.topK else b.topK) ∧
    (mergeGenerationConfig b (some o)).maxOutputTokens
      = (if o.maxOutputTokens ≠ 0 then o.maxOutputTokens else b.maxOutputTokens) ∧
    (mergeGenerationConfig b (some o)).stopSequences
      = (if o.stopSequences ≠ [] then o.stopSequences else b.stopSequences) ∧
    (mergeGenerationConfig b (some o)).responseSchemaConfig
      = (if o.responseSchemaConfig.isSome then o.responseSchemaConfig
         else b.responseSchemaConfig) ∧
    (mergeGenerationConfig b (some o)).tools
      = (if o.tools ≠ [] then o.tools else b.tools) ∧
    (mergeGenerationConfig b (some o)).toolConfig
      = (if o.toolConfig.isSome then o.toolConfig else b.toolConfig) := by
  refine ⟨?_, ?_, ?_, ?_, ?_, ?_, ?_, ?_⟩ <;>
    simp only [mergeGenerationConfig, List.length_pos, ne_eq,
      apply_ite GenerationConfig.temperature, apply_ite GenerationConfig.topP,
      apply_ite GenerationConfig.topK, apply_ite GenerationConfig.maxOutputTokens,
      apply_ite GenerationConfig.stopSequences,
      apply_ite GenerationConfig.responseSchemaConfig,
      apply_ite GenerationConfig.tools, apply_ite GenerationConfig.toolConfig,
      ite_self]

/-- C6: `Agent.Generate` merges the per-call override into a fresh copy of
the agent's stored `DefaultGenerationConfig`: after the clone/merge prefix
runs, the stored default cell is unchanged, while the freshly allocated
cell holds the merge of a copy of the default with the override. -/
theorem generate_preserves_default_config (h : ConfigHeap) (d : Nat)
    (override : Option GenerationConfig) (hd : d < h.length) :
    heapGet (generateResolveConfig h (some d) override).1 d = heapGet h d ∧
    heapGet (generateResolveConfig h (some d) override).1
        (generateResolveConfig h (some d) override).2
      = some (mergeGenerationConfig ((heapGet h d).getD {}) override) := by
  have happ : ∀ v : GenerationConfig, (h ++ [v])[d]? = h[d]? := fun v =>
    List.getElem?_append_left hd
  cases override with
  | none =>
    constructor
    · simp [generateResolveConfig, cloneGenerationConfig, heapGet, happ]
    · simp [generateResolveConfig, cloneGenerationConfig, heapGet, mergeGenerationConfig,
        List.getElem?_concat_length]
  | some ov =>
    constructor
    · simp [generateResolveConfig, cloneGenerationConfig, mergeGenerationConfigAt,
        heapGet, heapSet, List.getElem?_concat_length, happ]
    · simp [generateResolveConfig, cloneGenerationConfig, mergeGenerationConfigAt,
        heapGet, heapSet, List.getElem?_concat_length]

/-- Witness for C6 at a concrete one-cell heap. -/
theorem generate_preserves_default_config_witness :
    0 < ([{ maxOutputTokens := 7 }] : ConfigHeap).length ∧
    heapGet (generateResolveConfig [{ maxOutputTokens := 7 }] (some 0)
        (some { maxOutputTokens := 9 })).1 0
      = heapGet [{ maxOutputTokens := 7 }] 0 :=
  ⟨by decide,
   (generate_preserves_default_config [{ maxOutputTokens := 7 }] 0
      (some { maxOutputTokens := 9 }) (by decide)).1⟩

/-- C10: when a tool's `ResponseConfig` supplies a struct type (`Schema`)
or a pre-built wire schema (`SchemaGenAI`), `BuildGeminiTool` writes the
resulting schema into the declaration's request `Parameters` field
(overwriting anything the `RequestConfig` put there — the result is
independent of the request config), not into a response-schema field;
only `ResponseConfig.SchemaJSON` populates `ResponseJsonSchema`. -/
theorem buildGeminiTool_response_overwrites_parameters
    (bst : TypeRepr → GenaiSchema) (tool : Tool) (rc : SchemaConfig)
    (hrc : tool.responseConfig = some rc) :
    ∃ fd : FunctionDeclaration,
      BuildGeminiTool bst tool = .ok { functionDeclarations := [fd] } ∧
      fd.responseJsonSchema = rc.schemaJSON ∧
      ((rc.schema.isSome ∨ rc.schemaGenAI.isSome) →
        fd.parameters = (match rc.schemaGenAI with
          | some s => some s
          | none => rc.schema.map bst)) := by
  simp only [BuildGeminiTool, hrc]
  refine ⟨_, rfl, ?_, ?_⟩
  · repeat' split
    all_goals simp_all
  · intro hset
    repeat' split
    all_goals simp_all

/-- Witness for C10: a concrete tool whose request config supplies a wire
schema and whose response config supplies a struct type; the derived
response schema lands in `parameters`, displacing the request schema. -/
theorem buildGeminiTool_response_overwrites_parameters_witness :
    ∃ fd : FunctionDeclaration,
      BuildGeminiTool (fun t => { token := t.token + 100 })
          { name := "t", description := "d",
            requestConfig := some { schemaGenAI := some { token := 1 } },
            responseConfig := some { schema := some { token := 5 } } }
        = .ok { functionDeclarations := [fd] } ∧
      fd.responseJsonSchema = none ∧
      fd.parameters = some { token := 105 } := by
  obtain ⟨fd, h1, h2, h3⟩ := buildGeminiTool_response_overwrites_parameters
    (fun t => { token := t.token + 100 })
    { name := "t", description := "d",
      requestConfig := some { schemaGenAI := some { token := 1 } },
      responseConfig := some { schema := some { token := 5 } } }
    { schema := some { token := 5 } } rfl
  exact ⟨fd, h1, h2, by simpa using h3 (Or.inl rfl)⟩

/-- Folding a constant-update function over a list keeps the image of the
last element (or the initial value on an empty list). -/
theorem foldl_const_last {α β : Type} (g : α → β) : ∀ (l : List α) (init : β),
    l.foldl (fun _ x => g x) init
      = match l.getLast? with | some x => g x | none => init := by
  intro l
  induction l with
  | nil => intro init; rfl
  | cons x xs ih =>
    intro init
    simp only [List.foldl_cons, ih, List.getLast?_cons]
    cases h : xs.getLast? with
    | none =>
      have : xs = [] := by
        cases xs with
        | nil => rfl
        | cons y ys => simp [List.getLast?_cons] at h
      subst this
      simp
    | some y =>
      simp [List.getLastD_eq_getLast?, h]

/-- The function-call component of the part fold is the fold of the parts'
function calls, last one winning. -/
theorem foldParts_snd : ∀ (parts : List GeminiPart) (sb : String) (fc : Option FunctionCall),
    (foldParts parts (sb, fc)).2
      = (parts.filterMap (fun p => p.functionCall)).foldl
          (fun _ fn => some { name := fn.name, args := fn.args }) fc := by
  intro parts
  induction parts with
  | nil => intro sb fc; rfl
  | cons p rest ih =>
    intro sb fc
    simp only [foldParts]
    cases hf : p.functionCall with
    | some pfc => simp [List.filterMap_cons, hf, ih]
    | none =>
      by_cases ht : p.text ≠ "" <;> simp [List.filterMap_cons, hf, ht, ih]

/-- C9: the wire-response conversion fails on an empty candidate list and
on a first candidate without content parts; otherwise only the first
candidate is considered, the function-call field is the last function call
among its parts, and text parts are newline-joined in order with the final
text trimmed — in particular parts `[{Text:"a"},{Text:"b"}]` yield
`Text = "a\nb"`. -/
theorem modelResponseFromGeminiContent_spec :
    (ModelResponseFromGeminiContent [] = .error (.msg "no candidates found in response")) ∧
    (∀ rest : List GeminiCandidate,
      ModelResponseFromGeminiContent ({ content := none } :: rest)
        = .error (.msg "candidate has no content parts")) ∧
    (∀ (role : String) (rest : List GeminiCandidate),
      ModelResponseFromGeminiContent
          ({ content := some { role := role, parts := [] } } :: rest)
        = .error (.msg "candidate has no content parts")) ∧
    (∀ (c : GeminiCandidate) (rest : List GeminiCandidate),
      ModelResponseFromGeminiContent (c :: rest) = ModelResponseFromGeminiContent [c]) ∧
    (∀ (c : GeminiCandidate) (rest : List GeminiCandidate) (content : GeminiContent)
        (r : ModelResponse),
      c.content = some content →
      ModelResponseFromGeminiContent (c :: rest) = .ok r →
      r.functionCall = lastFunctionCall content.parts) ∧
    (ModelResponseFromGeminiContent
        [{ content := some { role := "model", parts := [{ text := "a" }, { text := "b" }] } }]
      = .ok { text := "a\nb" }) := by
  refine ⟨rfl, fun rest => rfl, fun role rest => rfl, fun c rest => rfl, ?_, rfl⟩
  intro c rest content r hc hr
  simp only [ModelResponseFromGeminiContent, hc] at hr
  split at hr
  · cases hr
  · injection hr with hr
    subst hr
    simp only [lastFunctionCall, foldParts_snd, foldl_const_last]
    cases (content.parts.filterMap (fun p => p.functionCall)).getLast? <;> simp

/-- Witness for C9, exercising the hypothesis-bearing conjunct on a
candidate whose parts carry two function calls: the last one wins. -/
theorem modelResponseFromGeminiContent_spec_witness :
    ∃ r : ModelResponse,
      ModelResponseFromGeminiContent
          [{ content := some ⟨"model", [{ functionCall := some ⟨"f1", none⟩ },
                                        { functionCall := some ⟨"f2", none⟩ }]⟩ }]
        = .ok r ∧
      r.functionCall = lastFunctionCall
          [{ functionCall := some ⟨"f1", none⟩ },
           { functionCall := some ⟨"f2", none⟩ }] := by
  refine ⟨{ functionCall := some ⟨"f2", none⟩ }, rfl, ?_⟩
  exact modelResponseFromGeminiContent_spec.2.2.2.2.1
    { content := some ⟨"model", [{ functionCall := some ⟨"f1", none⟩ },
                                 { functionCall := some ⟨"f2", none⟩ }]⟩ }
    [] _ _ rfl rfl

/-- The file loop agrees with the index-free per-file conversion on
success (they differ only in the index recorded in error messages). -/
theorem filesToParts_ok_iff_mapM (rf : String → Except GoErr (List Nat)) :
    ∀ (files : List FileConfig) (i : Nat) (ps : List GeminiPart),
      filesToParts rf files i = .ok ps ↔ mapFileParts rf files = .ok ps := by
  intro files
  induction files with
  | nil => intro i ps; simp [filesToParts, mapFileParts]
  | cons f rest ih =>
    intro i ps
    simp only [filesToParts, mapFileParts]
    cases hf : fileConfigToPart rf f with
    | error e => simp
    | ok part =>
      cases hrest : filesToParts rf rest (i + 1) with
      | error e =>
        cases hm : mapFileParts rf rest with
        | error e' => simp
        | ok ps' =>
          have := (ih (i + 1) ps').mpr hm
          rw [this] at hrest
          cases hrest
      | ok ps' =>
        have hm := (ih (i + 1) ps').mp hrest
        simp [hrest, hm]

/-- A failure of the file loop is always a wrapped error (never the bare
validation message). -/
theorem filesToParts_error_wrap (rf : String → Except GoErr (List Nat)) :
    ∀ (files : List FileConfig) (i : Nat) (e : GoErr),
      filesToParts rf files i = .error e → ∃ c e', e = .wrap c e' := by
  intro files
  induction files with
  | nil => intro i e h; cases h
  | cons f rest ih =>
    intro i e h
    simp only [filesToParts] at h
    cases hf : fileConfigToPart rf f with
    | error e' =>
      rw [hf] at h
      injection h with h
      exact ⟨_, _, h.symm⟩
    | ok part =>
      rw [hf] at h
      cases hrest : filesToParts rf rest (i + 1) with
      | error e' =>
        rw [hrest] at h
        injection h with h
        subst h
        exact ih (i + 1) _ hrest
      | ok ps => rw [hrest] at h; cases h

/-- C8 (amended): the conversion fails with the validation error exactly
when the prompt has empty text, no structured payload and no files; when
at least one of them is non-empty and every file converts, it succeeds
with parts in order text (if present), structured payload (if present),
then one part per file in file-list order. (A non-empty file list whose
entries fail to convert — unreadable local path, or neither contents nor
path — is a wrapped file error instead, which the original claim did not
allow.) -/
theorem geminiContentFromPrompt_amended (rf : String → Except GoErr (List Nat))
    (p : Prompt) :
    (GeminiContentFromPrompt rf p
        = .error (.msg "prompt must contain at least text, structured text, or files")
      ↔ (p.text = "" ∧ p.structuredText = none ∧ p.files = [])) ∧
    (∀ ps : List GeminiPart, mapFileParts rf p.files = .ok ps →
      ¬(p.text = "" ∧ p.structuredText = none ∧ p.files = []) →
      GeminiContentFromPrompt rf p
        = .ok [{ role := "user",
                 parts := (if p.text ≠ "" then [{ text := p.text }] else [])
                   ++ (match p.structuredText with
                       | some v => [{ text := marshalJson v }]
                       | none => [])
                   ++ ps }]) := by
  constructor
  · constructor
    · intro h
      cases hcond : (p.text = "" && p.files.length = 0 && p.structuredText.isNone) with
      | true =>
        simp only [Bool.and_eq_true, decide_eq_true_eq, Option.isNone_iff_eq_none,
          List.length_eq_zero] at hcond
        exact ⟨hcond.1.1, hcond.2, hcond.1.2⟩
      | false =>
        exfalso
        simp only [GeminiContentFromPrompt, hcond, Bool.false_eq_true, if_false] at h
        cases hfp : filesToParts rf p.files 0 with
        | error e =>
          rw [hfp] at h
          injection h with h
          obtain ⟨c, e', he⟩ := filesToParts_error_wrap rf p.files 0 e hfp
          rw [he] at h
          cases h
        | ok fps => rw [hfp] at h; cases h
    · rintro ⟨h1, h2, h3⟩
      simp [GeminiContentFromPrompt, h1, h2, h3]
  · intro ps hps hne
    cases hcond : (p.text = "" && p.files.length = 0 && p.structuredText.isNone) with
    | true =>
      exfalso
      apply hne
      simp only [Bool.and_eq_true, decide_eq_true_eq, Option.isNone_iff_eq_none,
        List.length_eq_zero] at hcond
      exact ⟨hcond.1.1, hcond.2, hcond.1.2⟩
    | false =>
      have hfp : filesToParts rf p.files 0 = .ok ps :=
        (filesToParts_ok_iff_mapM rf _ 0 ps).mpr hps
      simp only [GeminiContentFromPrompt, hcond, Bool.false_eq_true, if_false, hfp]
      cases hst : p.structuredText <;> by_cases ht : p.text ≠ "" <;> simp [hst, ht]

/-- Counterexample for C8 as stated: a prompt whose file list is non-empty
(so the claim demands success) but whose single file has neither contents
nor a path, so conversion fails with a wrapped file error. -/
theorem geminiContentFromPrompt_counterexample :
    (Prompt.files { text := "", structuredText := none, files := [{}], model := "" } ≠ []) ∧
    GeminiContentFromPrompt (fun _ => .error (.msg "io error"))
        { text := "", structuredText := none, files := [{}], model := "" }
      = .error (.wrap "failed to process file at index 0"
          (.msg "fileConfigToPart: both file.Contents and file.Path are empty")) := by
  exact ⟨by simp, rfl⟩

/-- Witness for C8's amended theorem at a concrete prompt with text and
one remote file. -/
theorem geminiContentFromPrompt_amended_witness :
    GeminiContentFromPrompt (fun _ => .error (.msg "io error"))
        { text := "hello", structuredText := none,
          files := [{ path := "https://x/y", name := "y", mimeType := "image/png" }],
          model := "" }
      = .ok [{ role := "user",
               parts := [{ text := "hello" },
                         { fileData := some { displayName := "y", fileURI := "https://x/y",
                                              mimeType := "image/png" } }] }] := by
  have h := (geminiContentFromPrompt_amended (fun _ => .error (.msg "io error"))
      { text := "hello", structuredText := none,
        files := [{ path := "https://x/y", name := "y", mimeType := "image/png" }],
        model := "" }).2
      [{ fileData := some { displayName := "y", fileURI := "https://x/y",
                            mimeType := "image/png" } }]
      rfl (by simp)
  simpa [mapFileParts] using h

/-- `GeminiConfigFromGenerationConfig` never initialises the
`SystemInstruction` field: every successfully converted config carries a
nil system instruction. -/
theorem geminiConfig_systemInstruction_none (bst : TypeRepr → GenaiSchema)
    (c : Option GenerationConfig) (cfg : GenerateContentConfig)
    (h : GeminiConfigFromGenerationConfig bst c = .ok cfg) :
    cfg.systemInstruction = none := by
  have hrs : ∀ g rs, (applyResponseSchemaConfig bst g rs).systemInstruction
      = g.systemInstruction := by
    intro g rs
    simp only [applyResponseSchemaConfig]
    repeat' split
    all_goals rfl
  have htools : ∀ g ts g', applyToolsConfig bst g ts = .ok g' →
      g'.systemInstruction = g.systemInstruction := by
    intro g ts g' hg
    simp only [applyToolsConfig] at hg
    repeat' split at hg
    all_goals first
      | (injection hg with hg; subst hg; rfl)
      | cases hg
  have htc : ∀ g tc g', applyToolConfig g tc = .ok g' →
      g'.systemInstruction = g.systemInstruction := by
    intro g tc g' hg
    simp only [applyToolConfig] at hg
    repeat' split at hg
    all_goals first
      | (injection hg with hg; subst hg; rfl)
      | cases hg
  cases c with
  | none => cases h
  | some config =>
    simp only [GeminiConfigFromGenerationConfig] at h
    split at h
    · cases h
    · next g hg =>
      rw [htc _ _ _ h, htools _ _ _ hg, hrs]

/-- C7 (refuted by the code): when the user lookup succeeds with a
non-empty context and the config conversion succeeded, `Agent.Generate`
evaluates `config.SystemInstruction.Parts` on the just-converted config —
whose `SystemInstruction` is always nil — and panics with a nil-pointer
dereference instead of injecting the context and proceeding. -/
theorem agentGenerate_context_injection_panics (bst : TypeRepr → GenaiSchema)
    (env : GenerateEnv) (a : AgentConfig) (defaultModel : String) (prompt : Prompt)
    (overrideConfig : Option ChatConfig) (u : User)
    (hu : env.userLookup = .ok (some u)) (hc : u.context.length > 0)
    (hok : ∃ cfg, GeminiConfigFromGenerationConfig bst
        (some (generateBaseConfig a overrideConfig)) = .ok cfg) :
    agentGenerate bst env a defaultModel prompt overrideConfig
      = .panicked "nil pointer dereference: config.SystemInstruction" := by
  obtain ⟨cfg, hcfg⟩ := hok
  have hsi := geminiConfig_systemInstruction_none bst _ cfg hcfg
  simp only [agentGenerate, hcfg, hu, hc, if_true, injectUserContext, hsi]

/-- Witness for C7 at a concrete agent (the `NewAgent` default config), a
user with non-empty context, and a plain text prompt. -/
theorem agentGenerate_context_injection_panics_witness :
    agentGenerate (fun t => { token := t.token })
        { userLookup := .ok (some { id := "u1", context := "prefers metric units" }),
          readFile := fun _ => .error (.msg "no disk"),
          apiCall := fun _ _ _ => .ok (some []) }
        { id := "a1", defaultGenerationConfig := some { temperature := some { bits := 1 } } }
        "gemini-2.0-flash" { text := "hi" } none
      = .panicked "nil pointer dereference: config.SystemInstruction" := by
  exact agentGenerate_context_injection_panics (fun t => { token := t.token })
    { userLookup := .ok (some { id := "u1", context := "prefers metric units" }),
      readFile := fun _ => .error (.msg "no disk"),
      apiCall := fun _ _ _ => .ok (some []) }
    { id := "a1", defaultGenerationConfig := some { temperature := some { bits := 1 } } }
    "gemini-2.0-flash" { text := "hi" } none
    { id := "u1", context := "prefers metric units" }
    rfl (by decide) ⟨_, rfl⟩

/-- A `SaveChatMessage` call appends exactly one save event for its
message. -/
theorem saveChatMessage_events (st : ChatState) (m : ChatMessage) :
    ∃ b, (saveChatMessage st m).1.events = st.events ++ [.save m b] := by
  unfold saveChatMessage
  rcases hpo : st.pendingOutcomes with _ | ⟨_ | e, tail⟩
  · exact ⟨true, rfl⟩
  · exact ⟨true, rfl⟩
  · exact ⟨false, rfl⟩

/-- C1: `SendMessage` records the user's turn as a `{role: user}` message
first — before any API invocation can appear in the trace — and if that
write fails it returns the wrapped persistence error with the API-call
counter and the log untouched. -/
theorem chatSendMessage_persist_user_before_api
    (apiResult : Except GoErr (List GeminiCandidate)) (st : ChatState) (prompt : Prompt) :
    (∃ (ok : Bool) (rest : List StoreEvent),
      (chatSendMessage apiResult st prompt).1.events
        = st.events ++ StoreEvent.save { role := "user", content := prompt.text } ok :: rest) ∧
    (∀ (e : GoErr) (tail : List (Option GoErr)), st.pendingOutcomes = some e :: tail →
      (chatSendMessage apiResult st prompt).2
          = .error (.wrap "error saving the redis SaveChatMessage" e) ∧
      (chatSendMessage apiResult st prompt).1.apiCalls = st.apiCalls ∧
      (chatSendMessage apiResult st prompt).1.log = st.log) := by
  constructor
  · obtain ⟨b, hb⟩ := saveChatMessage_events st { role := "user", content := prompt.text }
    rcases hsave : saveChatMessage st { role := "user", content := prompt.text }
      with ⟨st1, res⟩
    rw [hsave] at hb
    simp only [chatSendMessage, hsave]
    cases res with
    | some e => exact ⟨b, [], hb⟩
    | none =>
      have hb' : st1.events
          = st.events ++ [StoreEvent.save { role := "user", content := prompt.text } b] := hb
      cases apiResult with
      | error e => exact ⟨b, [.apiCall], by simp [hb']⟩
      | ok candidates =>
        cases candidates with
        | nil => exact ⟨b, [.apiCall], by simp [hb']⟩
        | cons cand crest =>
          cases hcc : cand.content with
          | none => exact ⟨b, [.apiCall], by simp [hcc, hb']⟩
          | some content =>
            cases hp : content.parts with
            | nil => exact ⟨b, [.apiCall], by simp [hcc, hp, hb']⟩
            | cons p0 prest =>
              by_cases ht : p0.text = ""
              · exact ⟨b, [.apiCall], by simp [hcc, hp, ht, hb']⟩
              · obtain ⟨b2, hb2⟩ := saveChatMessage_events { st1 with apiCalls := st1.apiCalls + 1, events := st1.events ++ [.apiCall] } { role := "model", content := p0.text }
                refine ⟨b, [.apiCall,
                  .save { role := "model", content := p0.text } b2], ?_⟩
                simp only [hcc, hp, ne_eq, ht, not_false_eq_true, if_true]
                rw [hb2]
                simp [hb']
  · intro e tail hpo
    refine ⟨?_, ?_, ?_⟩ <;> simp [chatSendMessage, saveChatMessage, hpo]

/-- Witness for C1: a concrete call whose first write is scheduled to
fail; the result is the wrapped error and the API counter stays zero. -/
theorem chatSendMessage_persist_user_before_api_witness :
    (chatSendMessage (.ok []) { pendingOutcomes := [some (.msg "redis down")] }
        { text := "Hi there!" }).2
      = .error (.wrap "error saving the redis SaveChatMessage" (.msg "redis down")) ∧
    (chatSendMessage (.ok []) { pendingOutcomes := [some (.msg "redis down")] }
        { text := "Hi there!" }).1.apiCalls = 0 := by
  have h := (chatSendMessage_persist_user_before_api (.ok [])
    { pendingOutcomes := [some (.msg "redis down")] } { text := "Hi there!" }).2
    (.msg "redis down") [] rfl
  exact ⟨h.1, h.2.1⟩

/-- Counterexample for C2 as stated: an empty-history chat whose model
reply has two text parts. The persisted model message holds only the first
part's text `"a"`, while the returned `ModelResponse.Text` is the
newline-join `"a\nb"` — so persisted content and returned text differ. -/
theorem chatSendMessage_sync_send_counterexample :
    ((chatSendMessage
        (.ok [{ content := some ⟨"model", [{ text := "a" }, { text := "b" }]⟩ }])
        {} { text := "Hi there!" }).1.log.map ChatMessage.content
      = ["Hi there!", "a"]) ∧
    ((chatSendMessage
        (.ok [{ content := some ⟨"model", [{ text := "a" }, { text := "b" }]⟩ }])
        {} { text := "Hi there!" }).2
      = .ok { text := "a\nb" }) ∧
    ("a" : String) ≠ "a\nb" := by
  refine ⟨rfl, rfl, by decide⟩

/-- C2 (amended): on an empty-history chat, a successful `SendMessage`
whose first candidate's first part carries non-empty text persists exactly
two messages in order — `{user, prompt}` then `{model, first part's
text}` — and returns the converted response (which succeeds); a failure
of the model-turn write leaves only the user message but does not fail the
already-successful call. The persisted model content equals the returned
`Text` only when the candidate has a single untrimmable text part; in
general it is the first part's text. -/
theorem chatSendMessage_sync_send_amended (st : ChatState) (prompt : Prompt)
    (cand : GeminiCandidate) (rest : List GeminiCandidate) (content : GeminiContent)
    (part0 : GeminiPart) (parts : List GeminiPart)
    (hlog : st.log = []) (hcontent : cand.content = some content)
    (hparts : content.parts = part0 :: parts) (htext : part0.text ≠ "") :
    (st.pendingOutcomes = [] →
      (chatSendMessage (.ok (cand :: rest)) st prompt).1.log
        = [{ role := "user", content := prompt.text },
           { role := "model", content := part0.text }] ∧
      (chatSendMessage (.ok (cand :: rest)) st prompt).2
        = ModelResponseFromGeminiContent (cand :: rest) ∧
      ∃ r, ModelResponseFromGeminiContent (cand :: rest) = .ok r) ∧
    (∀ e : GoErr, st.pendingOutcomes = [none, some e] →
      (chatSendMessage (.ok (cand :: rest)) st prompt).2
        = ModelResponseFromGeminiContent (cand :: rest) ∧
      (chatSendMessage (.ok (cand :: rest)) st prompt).1.log
        = [{ role := "user", content := prompt.text }]) := by
  have hok : ∃ r, ModelResponseFromGeminiContent (cand :: rest) = .ok r := by
    simp only [ModelResponseFromGeminiContent, hcontent, hparts]
    rw [if_neg (by simp)]
    exact ⟨_, rfl⟩
  constructor
  · intro hpo
    refine ⟨?_, ?_, hok⟩ <;>
      simp [chatSendMessage, saveChatMessage, hpo, hlog, hcontent, hparts, htext]
  · intro e hpo
    constructor <;>
      simp [chatSendMessage, saveChatMessage, hpo, hlog, hcontent, hparts, htext]

/-- Witness for C2's amended theorem: the single-part reply `"Hello!"` on
an empty chat yields the two-message log, and with a failing second write
the call still returns the converted response. -/
theorem chatSendMessage_sync_send_amended_witness :
    ((chatSendMessage (.ok [{ content := some ⟨"model", [{ text := "Hello!" }]⟩ }])
        {} { text := "Hi there!" }).1.log
      = [{ role := "user", content := "Hi there!" },
         { role := "model", content := "Hello!" }]) ∧
    ((chatSendMessage (.ok [{ content := some ⟨"model", [{ text := "Hello!" }]⟩ }])
        { pendingOutcomes := [none, some (.msg "redis down")] } { text := "Hi there!" }).2
      = ModelResponseFromGeminiContent [{ content := some ⟨"model", [{ text := "Hello!" }]⟩ }]) := by
  constructor
  · exact ((chatSendMessage_sync_send_amended {} { text := "Hi there!" }
      { content := some ⟨"model", [{ text := "Hello!" }]⟩ } []
      ⟨"model", [{ text := "Hello!" }]⟩ { text := "Hello!" } []
      rfl rfl rfl (by decide)).1 rfl).1
  · exact ((chatSendMessage_sync_send_amended
      { pendingOutcomes := [none, some (.msg "redis down")] } { text := "Hi there!" }
      { content := some ⟨"model", [{ text := "Hello!" }]⟩ } []
      ⟨"model", [{ text := "Hello!" }]⟩ { text := "Hello!" } []
      rfl rfl rfl (by decide)).2 (.msg "redis down") rfl).1

/-- The accumulator component of the streaming per-part step is the old
accumulator followed by the parts' text. -/
theorem streamParts_fst : ∀ (parts : List GeminiPart) (a : String) (o : List ModelResponse),
    (streamParts parts (a, o)).1 = a ++ partsText parts := by
  intro parts
  induction parts with
  | nil => intro a o; simp [streamParts, partsText]
  | cons p rest ih =>
    intro a o
    simp only [streamParts, partsText]
    by_cases ht : p.text ≠ ""
    · rw [if_pos ht, if_pos ht, ih, String.append_assoc]
    · rw [if_neg ht, if_neg ht]
      cases hf : p.functionCall <;> simp [ih]

/-- On an error-free upstream stream with a healthy store, the streaming
loop leaves the log extended by exactly one model message carrying the
accumulated-plus-remaining text when that text is non-empty, and by
nothing otherwise. -/
theorem streamLoop_log : ∀ (items : List (Except GoErr (List GeminiCandidate)))
    (st : ChatState) (acc : String) (out : List ModelResponse),
    (∀ e : GoErr, Except.error e ∉ items) → st.pendingOutcomes = [] →
    (streamLoop st items acc out).1.log
      = st.log ++ (if acc ++ streamText items = "" then []
          else [{ role := "model", content := acc ++ streamText items }]) := by
  intro items
  induction items with
  | nil =>
    intro st acc out hne hpo
    simp only [streamLoop, streamText]
    by_cases ha : acc = ""
    · simp [ha]
    · simp [ha, saveChatMessage, hpo]
  | cons item rest ih =>
    intro st acc out hne hpo
    cases item with
    | error e => exact absurd (by simp) (hne e)
    | ok cs =>
      have hne' : ∀ e : GoErr, Except.error e ∉ rest := fun e he => hne e (by simp [he])
      simp only [streamLoop, streamText]
      cases cs with
      | nil => simpa [chunkText] using ih st acc out hne' hpo
      | cons c crest =>
        cases hcc : c.content with
        | none => simpa [hcc, chunkText] using ih st acc out hne' hpo
        | some content =>
          simpa [hcc, chunkText, String.append_assoc, streamParts_fst] using
            ih st (streamParts content.parts (acc, out)).1
              (streamParts content.parts (acc, out)).2 hne' hpo

/-- Hitting an upstream error stops the loop with the chat state exactly
as it was: nothing is flushed. -/
theorem streamLoop_error_state : ∀ (pfx : List (List GeminiCandidate))
    (st : ChatState) (acc : String) (out : List ModelResponse) (e : GoErr)
    (rest : List (Except GoErr (List GeminiCandidate))),
    (streamLoop st (pfx.map .ok ++ .error e :: rest) acc out).1 = st := by
  intro pfx
  induction pfx with
  | nil => intro st acc out e rest; rfl
  | cons cs pfxrest ih =>
    intro st acc out e rest
    simp only [List.map_cons, List.cons_append, streamLoop]
    cases cs with
    | nil => simpa using ih st acc out e rest
    | cons c crest =>
      cases hcc : c.content with
      | none => simpa [hcc] using ih st acc out e rest
      | some content =>
        simpa [hcc] using ih st (streamParts content.parts (acc, out)).1
          (streamParts content.parts (acc, out)).2 e rest

/-- Counterexample for C3 as stated: one text delta `"a"` followed by an
upstream error. The error is delivered to the consumer as a stream item
after the delta, text was accumulated, yet no model-role message is
persisted — the goroutine returns before the flush step. -/
theorem chatSendMessageStream_flush_counterexample :
    ((chatSendMessageStream
        [.ok [{ content := some ⟨"model", [{ text := "a" }]⟩ }], .error (.msg "ctx")]
        {} { text := "hi" }).2
      = [{ text := "a" }, { error := some (.msg "ctx") }]) ∧
    ((chatSendMessageStream
        [.ok [{ content := some ⟨"model", [{ text := "a" }]⟩ }], .error (.msg "ctx")]
        {} { text := "hi" }).1.log
      = [{ role := "user", content := "hi" }]) := ⟨rfl, rfl⟩

/-- C3 (amended): when the upstream stream completes without delivering an
error, exactly one model message holding the full concatenated text is
persisted at stream end (and none when no text was accumulated) — never
one record per delta; when an error is delivered as a stream item, the
accumulator is discarded and no model message is persisted for the turn. -/
theorem chatSendMessageStream_flush_amended
    (stream : List (Except GoErr (List GeminiCandidate)))
    (st : ChatState) (prompt : Prompt)
    (hne : ∀ e : GoErr, Except.error e ∉ stream) (hpo : st.pendingOutcomes = []) :
    (chatSendMessageStream stream st prompt).1.log
      = st.log ++ [{ role := "user", content := prompt.text }]
        ++ (if streamText stream = "" then []
            else [{ role := "model", content := streamText stream }]) := by
  simp only [chatSendMessageStream, saveChatMessage, hpo]
  rw [streamLoop_log stream _ "" [] hne (by simp)]
  simp

/-- Witness for C3's amended theorem on a two-delta stream: the two
fragments are persisted as the single concatenated model message. -/
theorem chatSendMessageStream_flush_amended_witness :
    (chatSendMessageStream
        [.ok [{ content := some ⟨"model", [{ text := "Hel" }]⟩ }],
         .ok [{ content := some ⟨"model", [{ text := "lo" }]⟩ }]]
        {} { text := "hi" }).1.log
      = [{ role := "user", content := "hi" }, { role := "model", content := "Hello" }] := by
  have h := chatSendMessageStream_flush_amended
    [.ok [{ content := some ⟨"model", [{ text := "Hel" }]⟩ }],
     .ok [{ content := some ⟨"model", [{ text := "lo" }]⟩ }]]
    {} { text := "hi" } (fun e => by simp) rfl
  simpa using h

/-- C4: a stream interrupted by an upstream error after any prefix of
chunks (mid-stream cancellation surfaces to the consuming loop as exactly
such an error item) persists no model-role message for the turn: the
final log is the prior log plus only the user message — the partial
accumulator is discarded, never flushed. -/
theorem chatSendMessageStream_cancel_no_flush (pfx : List (List GeminiCandidate))
    (e : GoErr) (rest : List (Except GoErr (List GeminiCandidate)))
    (st : ChatState) (prompt : Prompt) (hpo : st.pendingOutcomes = []) :
    (chatSendMessageStream (pfx.map .ok ++ .error e :: rest) st prompt).1.log
      = st.log ++ [{ role := "user", content := prompt.text }] := by
  simp only [chatSendMessageStream, saveChatMessage, hpo]
  rw [streamLoop_error_state]

/-- Witness for C4: cancellation after one partial chunk `"par"`. -/
theorem chatSendMessageStream_cancel_no_flush_witness :
    (chatSendMessageStream
        [.ok [{ content := some ⟨"model", [{ text := "par" }]⟩ }],
         .error (.msg "context canceled")]
        {} { text := "hi" }).1.log
      = [{ role := "user", content := "hi" }] := by
  have h := chatSendMessageStream_cancel_no_flush
    [[{ content := some ⟨"model", [{ text := "par" }]⟩ }]]
    (.msg "context canceled") [] {} { text := "hi" } rfl
  simpa using h

end Genaiclient
